import Mathlib

/-!
Shallow embedding of the task filter/sort engine, the task-list loader and the
local-storage logger of `src/frontend/js/renderer.js` (DailyEnchant renderer
process), together with proofs of the specified properties.

Modelling conventions:
* JS strings are Lean `String`; `String.prototype.toLowerCase` is modelled by
  ASCII lowering (`Char.toLower`), which is faithful on the ASCII data the
  renderer handles; `trim` removes the usual whitespace characters.
* Parsed `Date` values (`new Date(s)` used only for numeric comparison) are
  modelled as `Int` timestamps; an absent/NaN date in a comparator makes the
  comparator yield NaN, which `Array.prototype.sort` treats as 0 (the
  ECMAScript `SortCompare` step coerces NaN to +0), i.e. as "equal".
* `Array.prototype.sort` is required by ECMAScript to be stable; it is
  modelled by a stable insertion sort over the relation
  `le a b := comparator a b ≤ 0`.
* Optional / possibly-absent JS fields are `Option`; every access in the
  source is guarded (`x && ...`), which the embedding mirrors, so every
  embedded function is total.
-/

namespace Renderer

/-- Character class used by the model of `String.prototype.trim`. -/
def isJsWhitespace (c : Char) : Bool :=
  c = ' ' || c = '\t' || c = '\n' || c = '\r'

/-- Model of `String.prototype.toLowerCase` (ASCII range), as a map of
`Char.toLower` over the characters. -/
def jsToLower (s : String) : String :=
  (s.toList.map Char.toLower).asString

/-- Model of `String.prototype.trim`: drop leading and trailing whitespace. -/
def jsTrim (s : String) : String :=
  (((s.toList.dropWhile isJsWhitespace).reverse.dropWhile isJsWhitespace).reverse).asString

/-- Model of `String.prototype.includes`: contiguous-substring test. -/
def jsIncludes (s sub : String) : Bool :=
  decide (sub.toList <:+: s.toList)

/-- Log levels used by `FrontendLogger.log` in renderer.js. -/
inductive LogLevel where
  | info
  | warn
  | error
  deriving DecidableEq, Repr

/-- The `error: { message, stack }` detail attached to a log entry (renderer.js 228-231). -/
structure ErrorDetail where
  message : String
  stack : Option String
  deriving DecidableEq, Repr

/-- A log entry as built by `FrontendLogger.log` (renderer.js 224-232). -/
structure LogEntry where
  timestamp : String
  level : LogLevel
  message : String
  error : Option ErrorDetail
  deriving DecidableEq, Repr

/-- A task object as consumed by renderer.js.  `title` and `status` are always
present (data-model invariant); `category_id`, `due_date`, `description`,
`tags` and `updated_at` may be absent or null, modelled as `Option`.
`due_date` and `updated_at` hold the numeric value of the parsed `Date`. -/
structure Task where
  id : String
  title : String
  category_id : Option String
  priority : String
  due_date : Option Int
  status : String
  description : Option String
  tags : Option (List String)
  updated_at : Option Int
  deriving DecidableEq, Repr

/-- Stable insertion: place `x` before the first element `y` with `le x y`.
Used to model ECMAScript stable `Array.prototype.sort` with comparator
relation `le a b := compare a b ≤ 0`. -/
def sortInsert (le : α → α → Bool) (x : α) : List α → List α
  | [] => [x]
  | y :: ys => if le x y then x :: y :: ys else y :: sortInsert le x ys

/-- Stable sort used to model `Array.prototype.sort`: each element is inserted
into the sorted list of the elements that follow it, so an element placed
before the first later element it compares `≤` to keeps input order on ties. -/
def stableSort (le : α → α → Bool) : List α → List α
  | [] => []
  | x :: xs => sortInsert le x (stableSort le xs)

/-- Comparator relation of `case 'updated_at_desc'` (renderer.js 734):
`(a, b) => new Date(b.updated_at) - new Date(a.updated_at)`; an absent
timestamp gives NaN, treated as 0 by the sort. -/
def updatedAtDescLe (a b : Task) : Bool :=
  match a.updated_at, b.updated_at with
  | some x, some y => decide (y ≤ x)
  | _, _ => true

/-- Comparator relation of `case 'updated_at_asc'` (renderer.js 737). -/
def updatedAtAscLe (a b : Task) : Bool :=
  match a.updated_at, b.updated_at with
  | some x, some y => decide (x ≤ y)
  | _, _ => true

/-- Comparator relation of `case 'due_date_asc'` (renderer.js 740-745):
both dates absent compare 0; only `a` absent compares 1 (a after b); only `b`
absent compares -1; otherwise by date difference. -/
def dueDateAscLe (a b : Task) : Bool :=
  match a.due_date, b.due_date with
  | none, none => true
  | none, some _ => false
  | some _, none => true
  | some x, some y => decide (x ≤ y)

/-- Comparator relation of `case 'due_date_desc'` (renderer.js 748-753). -/
def dueDateDescLe (a b : Task) : Bool :=
  match a.due_date, b.due_date with
  | none, none => true
  | none, some _ => true
  | some _, none => false
  | some x, some y => decide (y ≤ x)

/-- The lookup table `priorityOrder = { high: 0, medium: 1, low: 2 }`
(renderer.js 756); an unrecognized key yields `undefined`, modelled `none`. -/
def priorityOrder (p : String) : Option Nat :=
  if p = "high" then some 0
  else if p = "medium" then some 1
  else if p = "low" then some 2
  else none

/-- Comparator relation of `case 'priority'` (renderer.js 757):
`priorityOrder[a.priority] - priorityOrder[b.priority]`.  If either rank is
`undefined` the subtraction is NaN, which the sort treats as 0 (equal). -/
def priorityLe (a b : Task) : Bool :=
  match priorityOrder a.priority, priorityOrder b.priority with
  | some x, some y => decide (x ≤ y)
  | _, _ => true

/-- Status-filter step of `getFilteredAndSortedTasks` (renderer.js 691-713),
parameterized by `today` (numeric value of the start of the current day) and
`tomorrow` (numeric value of the start of the next day). -/
def statusFilter (currentFilter : String) (today tomorrow : Int) (l : List Task) : List Task :=
  if currentFilter ≠ "all" then
    if currentFilter = "todo" then
      l.filter fun task => task.status = "todo"
    else if currentFilter = "in_progress" then
      l.filter fun task => task.status = "in_progress"
    else if currentFilter = "completed" then
      l.filter fun task => task.status = "completed"
    else if currentFilter = "overdue" then
      l.filter fun task =>
        match task.due_date with
        | some d => decide (d < today) && decide (task.status ≠ "completed")
        | none => false
    else if currentFilter = "due_soon" then
      l.filter fun task =>
        match task.due_date with
        | some d => decide (today ≤ d) && decide (d < tomorrow) && decide (task.status ≠ "completed")
        | none => false
    else l
  else l

/-- Category-filter step of `getFilteredAndSortedTasks` (renderer.js 716-718):
keep tasks whose `category_id` strictly equals the selected id; a task with no
category never equals a concrete id. -/
def categoryFilter (currentCategory : String) (l : List Task) : List Task :=
  if currentCategory ≠ "all" then
    l.filter fun task => task.category_id = some currentCategory
  else l

/-- The per-task search predicate of renderer.js 723-727: the (already
lowercased, trimmed) search term is a substring of the lowercased title, or of
the lowercased description when present, or of some lowercased tag. -/
def taskMatchesSearch (searchTerm : String) (task : Task) : Bool :=
  jsIncludes (jsToLower task.title) searchTerm ||
  (match task.description with
   | some d => jsIncludes (jsToLower d) searchTerm
   | none => false) ||
  (match task.tags with
   | some tags => tags.any fun tag => jsIncludes (jsToLower tag) searchTerm
   | none => false)

/-- Search-filter step of `getFilteredAndSortedTasks` (renderer.js 721-728);
`searchTerm` is `searchInput.value.toLowerCase().trim()` and an empty string
is falsy, skipping the filter. -/
def searchFilter (searchTerm : String) (l : List Task) : List Task :=
  if searchTerm ≠ "" then l.filter (taskMatchesSearch searchTerm) else l

/-- Sort step of `getFilteredAndSortedTasks` (renderer.js 731-759): a `switch`
on the sort key with five recognized cases and no default case. -/
def applySort (sortBy : String) (l : List Task) : List Task :=
  if sortBy = "updated_at_desc" then stableSort updatedAtDescLe l
  else if sortBy = "updated_at_asc" then stableSort updatedAtAscLe l
  else if sortBy = "due_date_asc" then stableSort dueDateAscLe l
  else if sortBy = "due_date_desc" then stableSort dueDateDescLe l
  else if sortBy = "priority" then stableSort priorityLe l
  else l

/-- The whole pipeline `getFilteredAndSortedTasks` (renderer.js 687-762):
status filter, then category filter, then search filter on the lowercased and
trimmed search input, then sort. -/
def getFilteredAndSortedTasks (currentFilter currentCategory searchInput sortBy : String)
    (today tomorrow : Int) (tasks : List Task) : List Task :=
  applySort sortBy
    (searchFilter (jsTrim (jsToLower searchInput))
      (categoryFilter currentCategory
        (statusFilter currentFilter today tomorrow tasks)))

/-- The value found at `response.data.tasks` in a successful `listTasks`
response: an array of tasks, some non-array value (carried as a display
string), or the field is absent. -/
inductive TasksField where
  | arr (tasks : List Task)
  | nonArray (value : String)
  | absent
  deriving DecidableEq, Repr

/-- Success branch of `loadTasks` (renderer.js 496-508), applied to
`response.data` (`none` when the payload is missing).  Returns the new value
of the module-level `tasks` list together with the levels of the log entries
appended, in order: an info entry for the raw response is always logged;
when `Array.isArray(response.data.tasks)` holds the array is assigned and an
info entry logged, otherwise `tasks` is reset to `[]` and a warn entry
logged.  No branch throws. -/
def loadTasksSuccess (data : Option TasksField) : List Task × List LogLevel :=
  match data with
  | some (TasksField.arr ts) => (ts, [LogLevel.info, LogLevel.info])
  | some (TasksField.nonArray _) => ([], [LogLevel.info, LogLevel.warn])
  | some TasksField.absent => ([], [LogLevel.info, LogLevel.warn])
  | none => ([], [LogLevel.info, LogLevel.warn])

/-- One append of `FrontendLogger.saveToLocalStorage` (renderer.js 249-263):
push the entry, and when the length exceeds 1000 keep only the last 1000
(`logs.slice(-1000)`). -/
def saveToLocalStorage (logs : List LogEntry) (entry : LogEntry) : List LogEntry :=
  let pushed := logs ++ [entry]
  if pushed.length > 1000 then pushed.drop (pushed.length - 1000) else pushed

/-- Modelled from the spec (and claim C1's reading of it): a priority sort in
which an unrecognized priority "is assigned a stable fallback rank equal to
medium".  This is the comparison the claim attributes to the code; it is
compared against the code's actual `priorityLe` behaviour. -/
def priorityRankMediumFallback (p : String) : Nat :=
  (priorityOrder p).getD 1

/-- Modelled from the spec: the comparator relation induced by
`priorityRankMediumFallback`. -/
def priorityLeMediumFallback (a b : Task) : Bool :=
  decide (priorityRankMediumFallback a.priority ≤ priorityRankMediumFallback b.priority)

/-! ### General lemmas about the sort model -/

theorem sortInsert_perm (le : α → α → Bool) (x : α) (l : List α) :
    List.Perm (sortInsert le x l) (x :: l) := by
  induction l with
  | nil => simp [sortInsert]
  | cons y ys ih =>
    simp only [sortInsert]
    split
    · exact List.Perm.refl _
    · exact (ih.cons y).trans (List.Perm.swap x y ys)

theorem stableSort_perm (le : α → α → Bool) (l : List α) : List.Perm (stableSort le l) l := by
  induction l with
  | nil => exact List.Perm.refl _
  | cons x xs ih => exact (sortInsert_perm le x _).trans (ih.cons x)

theorem mem_sortInsert {le : α → α → Bool} {x a : α} {l : List α} :
    a ∈ sortInsert le x l ↔ a = x ∨ a ∈ l := by
  simpa using (sortInsert_perm le x l).mem_iff

theorem mem_stableSort {le : α → α → Bool} {a : α} {l : List α} :
    a ∈ stableSort le l ↔ a ∈ l :=
  (stableSort_perm le l).mem_iff

theorem sortInsert_pairwise {le : α → α → Bool} {P : α → Prop}
    (htot : ∀ a b, P a → P b → le a b = true ∨ le b a = true)
    (htrans : ∀ a b c, P a → P b → P c → le a b = true → le b c = true → le a c = true)
    {x : α} {l : List α} (hPx : P x) (hPl : ∀ y ∈ l, P y)
    (hl : l.Pairwise fun u v => le u v = true) :
    (sortInsert le x l).Pairwise fun u v => le u v = true := by
  induction l with
  | nil => simp [sortInsert]
  | cons y ys ih =>
    rw [List.pairwise_cons] at hl
    simp only [sortInsert]
    split
    case isTrue h =>
      rw [List.pairwise_cons]
      refine ⟨?_, List.pairwise_cons.mpr hl⟩
      intro z hz
      rcases List.mem_cons.mp hz with rfl | hz'
      · exact h
      · exact htrans x y z hPx (hPl y (by simp)) (hPl z (by simp [hz'])) h (hl.1 z hz')
    case isFalse h =>
      rw [List.pairwise_cons]
      constructor
      · intro z hz
        rcases mem_sortInsert.mp hz with rfl | hz'
        · rcases htot _ y hPx (hPl y (by simp)) with h' | h'
          · exact absurd h' h
          · exact h'
        · exact hl.1 z hz'
      · exact ih (fun u hu => hPl u (by simp [hu])) hl.2

theorem stableSort_pairwise {le : α → α → Bool} {P : α → Prop}
    (htot : ∀ a b, P a → P b → le a b = true ∨ le b a = true)
    (htrans : ∀ a b c, P a → P b → P c → le a b = true → le b c = true → le a c = true)
    {l : List α} (hPl : ∀ x ∈ l, P x) :
    (stableSort le l).Pairwise fun u v => le u v = true := by
  induction l with
  | nil => simp [stableSort]
  | cons x xs ih =>
    refine sortInsert_pairwise htot htrans (hPl x (by simp)) ?_ (ih fun y hy => hPl y (by simp [hy]))
    intro y hy
    exact hPl y (by simp [mem_stableSort.mp hy])

/-! ### Total-preorder facts about the comparators -/

theorem dueDateAscLe_total (a b : Task) :
    dueDateAscLe a b = true ∨ dueDateAscLe b a = true := by
  simp only [dueDateAscLe]
  rcases a.due_date with _ | x <;> rcases b.due_date with _ | y <;> simp
  omega

theorem dueDateAscLe_trans (a b c : Task) (h1 : dueDateAscLe a b = true)
    (h2 : dueDateAscLe b c = true) : dueDateAscLe a c = true := by
  simp only [dueDateAscLe] at h1 h2 ⊢
  rcases hA : a.due_date with _ | x <;> rcases hB : b.due_date with _ | y <;>
    rcases hC : c.due_date with _ | z <;> simp_all
  omega

theorem priorityLe_total (a b : Task) :
    priorityLe a b = true ∨ priorityLe b a = true := by
  simp only [priorityLe]
  rcases priorityOrder a.priority with _ | x <;> rcases priorityOrder b.priority with _ | y <;> simp
  omega

theorem priorityLe_trans_recognized (a b c : Task)
    (ha : (priorityOrder a.priority).isSome = true)
    (hb : (priorityOrder b.priority).isSome = true)
    (hc : (priorityOrder c.priority).isSome = true)
    (h1 : priorityLe a b = true) (h2 : priorityLe b c = true) : priorityLe a c = true := by
  simp only [priorityLe] at h1 h2 ⊢
  rcases hA : priorityOrder a.priority with _ | x <;>
    rcases hB : priorityOrder b.priority with _ | y <;>
    rcases hC : priorityOrder c.priority with _ | z <;> simp_all
  omega

/-! ### Unfolding equations and membership helpers for the pipeline -/

theorem statusFilter_all (today tomorrow : Int) (l : List Task) :
    statusFilter "all" today tomorrow l = l := rfl

theorem categoryFilter_all (l : List Task) : categoryFilter "all" l = l := rfl

theorem searchFilter_empty (l : List Task) : searchFilter "" l = l := rfl

theorem applySort_priority (l : List Task) :
    applySort "priority" l = stableSort priorityLe l := rfl

theorem applySort_due_date_asc (l : List Task) :
    applySort "due_date_asc" l = stableSort dueDateAscLe l := rfl

theorem statusFilter_overdue (today tomorrow : Int) (l : List Task) :
    statusFilter "overdue" today tomorrow l =
      l.filter (fun task =>
        match task.due_date with
        | some d => decide (d < today) && decide (task.status ≠ "completed")
        | none => false) := rfl

theorem statusFilter_due_soon (today tomorrow : Int) (l : List Task) :
    statusFilter "due_soon" today tomorrow l =
      l.filter (fun task =>
        match task.due_date with
        | some d => decide (today ≤ d) && decide (d < tomorrow) && decide (task.status ≠ "completed")
        | none => false) := rfl

theorem mem_of_mem_statusFilter {f : String} {today tomorrow : Int} {l : List Task} {t : Task}
    (h : t ∈ statusFilter f today tomorrow l) : t ∈ l := by
  unfold statusFilter at h
  repeat' split at h
  all_goals first
    | exact h
    | exact (List.mem_filter.mp h).1

theorem mem_of_mem_categoryFilter {c : String} {l : List Task} {t : Task}
    (h : t ∈ categoryFilter c l) : t ∈ l := by
  unfold categoryFilter at h
  split at h
  · exact (List.mem_filter.mp h).1
  · exact h

theorem mem_of_mem_searchFilter {s : String} {l : List Task} {t : Task}
    (h : t ∈ searchFilter s l) : t ∈ l := by
  unfold searchFilter at h
  split at h
  · exact (List.mem_filter.mp h).1
  · exact h

theorem mem_of_mem_applySort {s : String} {l : List Task} {t : Task}
    (h : t ∈ applySort s l) : t ∈ l := by
  unfold applySort at h
  repeat' split at h
  all_goals first
    | exact h
    | exact mem_stableSort.mp h

/-! ### Characterization of the logger ring buffer -/

set_option maxRecDepth 4000 in
theorem foldl_saveToLocalStorage (l : List LogEntry) :
    l.foldl saveToLocalStorage [] = l.drop (l.length - 1000) := by
  induction l using List.reverseRecOn with
  | nil => simp
  | append_singleton l e ih =>
    rw [List.foldl_append, ih, List.foldl_cons, List.foldl_nil]
    simp only [saveToLocalStorage]
    by_cases hn : l.length < 1000
    · have h0 : l.length - 1000 = 0 := by omega
      rw [h0, List.drop_zero, if_neg (by simp; omega),
        show (l ++ [e]).length - 1000 = 0 by simp; omega, List.drop_zero]
    · push_neg at hn
      have hlen : (l.drop (l.length - 1000)).length = 1000 := by
        rw [List.length_drop]; omega
      have hcond : (l.drop (l.length - 1000) ++ [e]).length > 1000 := by
        rw [List.length_append, hlen, List.length_singleton]; omega
      rw [if_pos hcond]
      have hidx : (l.drop (l.length - 1000) ++ [e]).length - 1000 = 1 := by
        rw [List.length_append, hlen, List.length_singleton]
      rw [hidx, ← List.drop_append_of_le_length (by omega), List.drop_drop]
      have hidx2 : l.length - 1000 + 1 = (l ++ [e]).length - 1000 := by
        rw [List.length_append, List.length_singleton]; omega
      rw [hidx2]

/-! ### Shared characterizations -/

theorem taskMatchesSearch_iff (st : String) (t : Task) :
    taskMatchesSearch st t = true ↔
      (st.toList <:+: (jsToLower t.title).toList ∨
       (∃ d, t.description = some d ∧ st.toList <:+: (jsToLower d).toList) ∨
       (∃ tags tag, t.tags = some tags ∧ tag ∈ tags ∧
         st.toList <:+: (jsToLower tag).toList)) := by
  rcases t with ⟨id, title, cat, prio, due, status, desc, tags, upd⟩
  rcases desc with _ | d <;> rcases tags with _ | tgs <;>
    simp [taskMatchesSearch, jsIncludes, List.any_eq_true, and_assoc, or_assoc]

theorem dueDateAsc_sorted_pairwise (tasks : List Task) :
    (stableSort dueDateAscLe tasks).Pairwise (fun a b =>
      (a.due_date = none → b.due_date = none) ∧
      ∀ x y, a.due_date = some x → b.due_date = some y → x ≤ y) := by
  have hp := stableSort_pairwise (P := fun _ => True)
    (fun a b _ _ => dueDateAscLe_total a b)
    (fun a b c _ _ _ h1 h2 => dueDateAscLe_trans a b c h1 h2)
    (l := tasks) (fun _ _ => trivial)
  refine hp.imp ?_
  intro a b h
  constructor
  · intro ha
    rcases hb : b.due_date with _ | y
    · rfl
    · exfalso
      simp [dueDateAscLe, ha, hb] at h
  · intro x y hx hy
    simpa [dueDateAscLe, hx, hy] using h

/-! ### Concrete tasks and log entries used in the claim instances -/

def c1Low1 : Task :=
  { id := "L1", title := "l1", category_id := none, priority := "low",
    due_date := none, status := "todo", description := none, tags := none, updated_at := none }

def c1Low2 : Task := { c1Low1 with id := "L2", title := "l2" }

def c1Med1 : Task := { c1Low1 with id := "M1", title := "m1", priority := "medium" }

def c1Med2 : Task := { c1Low1 with id := "M2", title := "m2", priority := "medium" }

def c1High1 : Task := { c1Low1 with id := "H1", title := "h1", priority := "high" }

def c1High2 : Task := { c1Low1 with id := "H2", title := "h2", priority := "high" }

def c1Urgent : Task := { c1Low1 with id := "U", title := "u", priority := "urgent" }

def c3TaskNone : Task :=
  { id := "N", title := "n", category_id := none, priority := "medium",
    due_date := none, status := "todo", description := none, tags := none, updated_at := none }

def c3TaskSome : Task := { c3TaskNone with id := "S", due_date := some 7 }

def c4Task : Task :=
  { id := "4", title := "overdue task", category_id := none, priority := "medium",
    due_date := some 4, status := "todo", description := none, tags := none, updated_at := none }

def c5Task : Task :=
  { id := "5", title := "boundary task", category_id := none, priority := "medium",
    due_date := some 0, status := "todo", description := none, tags := none, updated_at := none }

def c6Task : Task :=
  { id := "6", title := "Report", category_id := none, priority := "low",
    due_date := none, status := "todo", description := some "weekly numbers",
    tags := some ["roadmap", "mytag"], updated_at := none }

def c8TaskLow : Task :=
  { id := "81", title := "write tests", category_id := none, priority := "low",
    due_date := none, status := "todo", description := none, tags := none, updated_at := none }

def c8TaskHigh : Task := { c8TaskLow with id := "82", title := "fix bug", priority := "high" }

def c9Task : Task :=
  { id := "9", title := "Alpha", category_id := none, priority := "medium",
    due_date := none, status := "todo", description := none, tags := none, updated_at := none }

def c10Task : Task :=
  { id := "10", title := "keep order", category_id := none, priority := "low",
    due_date := some 3, status := "todo", description := none, tags := none, updated_at := none }

def c7First : LogEntry :=
  { timestamp := "t0", level := LogLevel.info, message := "first", error := none }

def c7Mid : LogEntry :=
  { timestamp := "t", level := LogLevel.info, message := "mid", error := none }

def c7Last : LogEntry :=
  { timestamp := "t1000", level := LogLevel.info, message := "last", error := none }

/-- The 1001 entries of the C7 instance: a distinguished first entry, 999
middle entries, and a distinguished 1001st entry. -/
def c7Entries : List LogEntry := c7First :: (List.replicate 999 c7Mid ++ [c7Last])

/-! ### Claim theorems -/

/-- C2: for every successful listTasks response whose payload is missing or
whose tasks field is not an array, the loader (a total function, so it cannot
throw) sets the in-memory task list to the empty list and logs a
warning-level entry; when the field is an array, the task list becomes
exactly that array. -/
theorem loadTasks_normalizes_malformed (data : Option TasksField) :
    (∀ ts, data = some (TasksField.arr ts) →
      loadTasksSuccess data = (ts, [LogLevel.info, LogLevel.info])) ∧
    ((∀ ts, data ≠ some (TasksField.arr ts)) →
      (loadTasksSuccess data).1 = [] ∧ LogLevel.warn ∈ (loadTasksSuccess data).2) := by
  constructor
  · rintro ts rfl
    rfl
  · intro h
    rcases data with _ | f
    · exact ⟨rfl, by simp [loadTasksSuccess]⟩
    · rcases f with ts | v | _
      · exact absurd rfl (h ts)
      · exact ⟨rfl, by simp [loadTasksSuccess]⟩
      · exact ⟨rfl, by simp [loadTasksSuccess]⟩

/-- C2 witness: on the concrete malformed response whose tasks field is the
string "not-an-array", the loader yields the empty list and a warn entry. -/
theorem loadTasks_normalizes_malformed_witness :
    (loadTasksSuccess (some (TasksField.nonArray "not-an-array"))).1 = [] ∧
    LogLevel.warn ∈ (loadTasksSuccess (some (TasksField.nonArray "not-an-array"))).2 :=
  (loadTasks_normalizes_malformed (some (TasksField.nonArray "not-an-array"))).2
    (fun ts h => by simp at h)

/-- C3: sorting by due_date_asc permutes the input so that every task without
a due date comes after every task with one (regardless of input order), and
tasks with due dates appear in ascending due-date order. -/
theorem due_date_asc_sorts_nulls_last (tasks : List Task) :
    List.Perm (applySort "due_date_asc" tasks) tasks ∧
    (applySort "due_date_asc" tasks).Pairwise (fun a b =>
      (a.due_date = none → b.due_date = none) ∧
      ∀ x y, a.due_date = some x → b.due_date = some y → x ≤ y) := by
  rw [applySort_due_date_asc]
  exact ⟨stableSort_perm _ _, dueDateAsc_sorted_pairwise tasks⟩

/-- C3 witness: the theorem applied to a concrete list in which the task with
no due date precedes the task with a due date. -/
theorem due_date_asc_sorts_nulls_last_witness :
    List.Perm (applySort "due_date_asc" [c3TaskNone, c3TaskSome]) [c3TaskNone, c3TaskSome] ∧
    applySort "due_date_asc" [c3TaskNone, c3TaskSome] = [c3TaskSome, c3TaskNone] :=
  ⟨(due_date_asc_sorts_nulls_last [c3TaskNone, c3TaskSome]).1, by decide⟩

/-- C7: the logger's stored buffer never exceeds 1000 entries after any
sequence of appends into an empty buffer, the buffer always holds exactly the
most recent entries (oldest evicted first), and concretely: after the 1001
inserts of c7Entries, the buffer has 1000 entries, the first entry is absent
and the 1001st is present. -/
theorem logger_buffer_bounded_evicts_oldest (entries : List LogEntry) :
    (entries.foldl saveToLocalStorage []).length ≤ 1000 ∧
    entries.foldl saveToLocalStorage [] = entries.drop (entries.length - 1000) ∧
    c7Entries.length = 1001 ∧
    (c7Entries.foldl saveToLocalStorage []).length = 1000 ∧
    c7First ∉ c7Entries.foldl saveToLocalStorage [] ∧
    c7Last ∈ c7Entries.foldl saveToLocalStorage [] := by
  have hlen : c7Entries.length = 1001 := by
    simp only [c7Entries, List.length_cons, List.length_append, List.length_replicate,
      List.length_singleton, List.length_nil]
  have hdrop : c7Entries.foldl saveToLocalStorage [] = List.replicate 999 c7Mid ++ [c7Last] := by
    rw [foldl_saveToLocalStorage, hlen]
    rfl
  refine ⟨?_, foldl_saveToLocalStorage entries, hlen, ?_, ?_, ?_⟩
  · rw [foldl_saveToLocalStorage, List.length_drop]
    omega
  · rw [hdrop]
    simp only [List.length_append, List.length_replicate, List.length_singleton,
      List.length_nil, List.length_cons]
  · rw [hdrop]
    intro hmem
    rcases List.mem_append.mp hmem with h | h
    · exact absurd (List.eq_of_mem_replicate h) (by decide)
    · rw [List.mem_singleton] at h
      exact absurd h (by decide)
  · rw [hdrop]
    exact List.mem_append.mpr (Or.inr (List.mem_singleton.mpr rfl))

/-- C7 witness: the bound instantiated at the concrete 1001-entry sequence. -/
theorem logger_buffer_bounded_evicts_oldest_witness :
    (c7Entries.foldl saveToLocalStorage []).length ≤ 1000 :=
  (logger_buffer_bounded_evicts_oldest c7Entries).1

/-- C10: for every sort key that is not one of the five recognized keys, the
sort step is the identity, and the pipeline returns the filtered list in
exactly the order it had after filtering. -/
theorem unrecognized_sort_key_is_identity (currentFilter currentCategory searchInput sortBy : String)
    (today tomorrow : Int) (tasks : List Task)
    (hsb : sortBy ∉ (["updated_at_desc", "updated_at_asc", "due_date_asc",
      "due_date_desc", "priority"] : List String)) :
    applySort sortBy tasks = tasks ∧
    getFilteredAndSortedTasks currentFilter currentCategory searchInput sortBy
        today tomorrow tasks =
      searchFilter (jsTrim (jsToLower searchInput))
        (categoryFilter currentCategory (statusFilter currentFilter today tomorrow tasks)) := by
  simp only [List.mem_cons, List.mem_singleton, not_or] at hsb
  obtain ⟨h1, h2, h3, h4, h5, -⟩ := hsb
  have hid : ∀ l : List Task, applySort sortBy l = l := by
    intro l
    simp only [applySort, if_neg h1, if_neg h2, if_neg h3, if_neg h4, if_neg h5]
  refine ⟨hid tasks, ?_⟩
  unfold getFilteredAndSortedTasks
  exact hid _

/-- C10 witness: the unrecognized sort key "original" leaves a concrete list
untouched by the sort step and by the whole pipeline after filtering. -/
theorem unrecognized_sort_key_is_identity_witness :
    applySort "original" [c10Task] = [c10Task] ∧
    getFilteredAndSortedTasks "all" "all" "" "original" 0 1 [c10Task] =
      searchFilter (jsTrim (jsToLower "")) (categoryFilter "all" (statusFilter "all" 0 1 [c10Task])) :=
  unrecognized_sort_key_is_identity "all" "all" "" "original" 0 1 [c10Task] (by decide)

/-- C8 counterexample: with status filter all, category filter all and empty
search text but the recognized sort key priority, the pipeline reorders a
two-task input, so the claim that the pipeline returns exactly the input in
input order under those three conditions alone is false. -/
theorem all_filter_pipeline_not_identity :
    getFilteredAndSortedTasks "all" "all" "" "priority" 0 1 [c8TaskLow, c8TaskHigh] =
      [c8TaskHigh, c8TaskLow] ∧
    getFilteredAndSortedTasks "all" "all" "" "priority" 0 1 [c8TaskLow, c8TaskHigh] ≠
      [c8TaskLow, c8TaskHigh] := by
  decide

/-- C8 (amended): for every task list T, with status filter all, category
filter all, empty search text, and a sort key that is none of the five
recognized keys (so the sort step is a no-op), the pipeline returns exactly
T, unchanged and in its input order. -/
theorem all_filter_pipeline_identity (sortBy : String) (today tomorrow : Int) (tasks : List Task)
    (hsb : sortBy ∉ (["updated_at_desc", "updated_at_asc", "due_date_asc",
      "due_date_desc", "priority"] : List String)) :
    getFilteredAndSortedTasks "all" "all" "" sortBy today tomorrow tasks = tasks := by
  simp only [List.mem_cons, List.mem_singleton, not_or] at hsb
  obtain ⟨h1, h2, h3, h4, h5, -⟩ := hsb
  unfold getFilteredAndSortedTasks
  rw [statusFilter_all, categoryFilter_all,
    show jsTrim (jsToLower "") = "" from rfl, searchFilter_empty]
  simp only [applySort, if_neg h1, if_neg h2, if_neg h3, if_neg h4, if_neg h5]

/-- C8 (amended) witness: with the unrecognized sort key "created_at" the
pipeline returns the concrete two-task list unchanged. -/
theorem all_filter_pipeline_identity_witness :
    getFilteredAndSortedTasks "all" "all" "" "created_at" 0 1 [c8TaskLow, c8TaskHigh] =
      [c8TaskLow, c8TaskHigh] :=
  all_filter_pipeline_identity "created_at" 0 1 [c8TaskLow, c8TaskHigh] (by decide)

/-- C4: every task with a due date set strictly before the start of today and
status not completed is kept by the overdue filter and not by the due_soon
filter, and the two tiers are disjoint for any task. -/
theorem overdue_before_today_never_due_soon (today tomorrow : Int) (tasks : List Task)
    (t : Task) (d : Int) (ht : t ∈ tasks) (hd : t.due_date = some d)
    (hlt : d < today) (hs : t.status ≠ "completed") :
    t ∈ statusFilter "overdue" today tomorrow tasks ∧
    t ∉ statusFilter "due_soon" today tomorrow tasks ∧
    ∀ u, u ∈ statusFilter "overdue" today tomorrow tasks →
      u ∉ statusFilter "due_soon" today tomorrow tasks := by
  refine ⟨?_, ?_, ?_⟩
  · rw [statusFilter_overdue]
    refine List.mem_filter.mpr ⟨ht, ?_⟩
    simp [hd, hlt, hs]
  · rw [statusFilter_due_soon]
    intro hmem
    have hpred := (List.mem_filter.mp hmem).2
    simp [hd] at hpred
    omega
  · intro u hu hv
    rw [statusFilter_overdue] at hu
    rw [statusFilter_due_soon] at hv
    have h1 := (List.mem_filter.mp hu).2
    have h2 := (List.mem_filter.mp hv).2
    rcases hdu : u.due_date with _ | du
    · rw [hdu] at h1
      simp at h1
    · rw [hdu] at h1 h2
      simp at h1 h2
      omega

/-- C4 witness: with today = 5 and tomorrow = 6, the concrete task due at 4
with status todo is kept by overdue, not by due_soon, and the tiers are
disjoint on the concrete list. -/
theorem overdue_before_today_never_due_soon_witness :
    c4Task ∈ statusFilter "overdue" 5 6 [c4Task] ∧
    c4Task ∉ statusFilter "due_soon" 5 6 [c4Task] ∧
    ∀ u, u ∈ statusFilter "overdue" 5 6 [c4Task] → u ∉ statusFilter "due_soon" 5 6 [c4Task] :=
  overdue_before_today_never_due_soon 5 6 [c4Task] c4Task 4
    (List.mem_singleton.mpr rfl) rfl (by decide) (by decide)

/-- C5: a non-completed task whose due date is exactly the start of today is
kept by the due_soon filter and not by the overdue filter, and the due_soon
filter keeps exactly the tasks with a due date in [today, tomorrow) and
status not completed. -/
theorem due_soon_boundary_inclusive (today tomorrow : Int) (h : today < tomorrow)
    (tasks : List Task) (t : Task) (ht : t ∈ tasks) (hd : t.due_date = some today)
    (hs : t.status ≠ "completed") :
    t ∈ statusFilter "due_soon" today tomorrow tasks ∧
    t ∉ statusFilter "overdue" today tomorrow tasks ∧
    ∀ u, u ∈ statusFilter "due_soon" today tomorrow tasks ↔
      u ∈ tasks ∧ ∃ d, u.due_date = some d ∧ today ≤ d ∧ d < tomorrow ∧
        u.status ≠ "completed" := by
  have hchar : ∀ u, u ∈ statusFilter "due_soon" today tomorrow tasks ↔
      u ∈ tasks ∧ ∃ d, u.due_date = some d ∧ today ≤ d ∧ d < tomorrow ∧
        u.status ≠ "completed" := by
    intro u
    rw [statusFilter_due_soon, List.mem_filter]
    refine and_congr_right fun _ => ?_
    rcases hdu : u.due_date with _ | du
    · simp [hdu]
    · simp [hdu, and_assoc]
  refine ⟨(hchar t).mpr ⟨ht, today, hd, le_refl today, h, hs⟩, ?_, hchar⟩
  rw [statusFilter_overdue]
  intro hmem
  have hpred := (List.mem_filter.mp hmem).2
  simp [hd] at hpred

/-- C5 witness: with today = 0 and tomorrow = 1, the concrete task due at 0
with status todo is kept by due_soon and not by overdue, and the due_soon
membership characterization holds on the concrete list. -/
theorem due_soon_boundary_inclusive_witness :
    c5Task ∈ statusFilter "due_soon" 0 1 [c5Task] ∧
    c5Task ∉ statusFilter "overdue" 0 1 [c5Task] ∧
    ∀ u, u ∈ statusFilter "due_soon" 0 1 [c5Task] ↔
      u ∈ [c5Task] ∧ ∃ d, u.due_date = some d ∧ 0 ≤ d ∧ d < 1 ∧ u.status ≠ "completed" :=
  due_soon_boundary_inclusive 0 1 (by decide) [c5Task] c5Task
    (List.mem_singleton.mpr rfl) rfl (by decide)

/-- C6: when the trimmed, case-folded search text is non-empty, the search
filter keeps exactly the tasks in which that text is a case-insensitive
substring of the title, or of the description when present, or of at least
one tag. -/
theorem search_filter_keeps_exactly_matches (searchInput : String) (tasks : List Task)
    (t : Task) (hne : jsTrim (jsToLower searchInput) ≠ "") :
    t ∈ searchFilter (jsTrim (jsToLower searchInput)) tasks ↔
      t ∈ tasks ∧
      ((jsTrim (jsToLower searchInput)).toList <:+: (jsToLower t.title).toList ∨
       (∃ d, t.description = some d ∧
         (jsTrim (jsToLower searchInput)).toList <:+: (jsToLower d).toList) ∨
       (∃ tags tag, t.tags = some tags ∧ tag ∈ tags ∧
         (jsTrim (jsToLower searchInput)).toList <:+: (jsToLower tag).toList)) := by
  unfold searchFilter
  rw [if_pos hne, List.mem_filter]
  exact and_congr_right fun _ => taskMatchesSearch_iff _ t

/-- C6 witness: the search input "TAG " trims and folds to "tag", which
matches the concrete task only through its tag "mytag": the task is kept even
though neither its title nor its description contains the text. -/
theorem search_filter_keeps_exactly_matches_witness :
    c6Task ∈ searchFilter (jsTrim (jsToLower "TAG ")) [c6Task] ∧
    ¬ (jsTrim (jsToLower "TAG ")).toList <:+: (jsToLower c6Task.title).toList ∧
    ¬ (jsTrim (jsToLower "TAG ")).toList <:+: (jsToLower "weekly numbers").toList := by
  refine ⟨?_, by decide, by decide⟩
  exact (search_filter_keeps_exactly_matches "TAG " [c6Task] c6Task (by decide)).mpr
    ⟨List.mem_singleton.mpr rfl,
     Or.inr (Or.inr ⟨["roadmap", "mytag"], "mytag", rfl, by decide, by decide⟩)⟩

/-- C1 counterexample: on the input [low-priority task, urgent-priority task]
the code's priority sort leaves the list unchanged, because the unrecognized
priority "urgent" makes the comparator NaN, treated as equal by the sort,
while a sort that assigns unrecognized priorities the fallback rank of medium
would put the urgent task before the low one; so the fallback-rank-medium
part of the claim is false of the code. -/
theorem priority_sort_unrecognized_not_medium :
    applySort "priority" [c1Low1, c1Urgent] = [c1Low1, c1Urgent] ∧
    stableSort priorityLeMediumFallback [c1Low1, c1Urgent] = [c1Urgent, c1Low1] ∧
    applySort "priority" [c1Low1, c1Urgent] ≠
      stableSort priorityLeMediumFallback [c1Low1, c1Urgent] := by
  decide

/-- C1 (amended): sorting by priority orders tasks with recognized priorities
by ascending severity rank high < medium < low, stably (the shuffled example
[low, high, medium, high, low, medium] yields high, high, medium, medium,
low, low); a task with an unrecognized priority is not given the medium rank:
its comparisons evaluate to NaN, which the sort treats as equality, so it
keeps its position relative to its neighbours. -/
theorem priority_sort_ranks_recognized (tasks : List Task)
    (hrec : ∀ t ∈ tasks, (priorityOrder t.priority).isSome = true) :
    List.Perm (applySort "priority" tasks) tasks ∧
    (applySort "priority" tasks).Pairwise (fun a b => ∀ ra rb,
      priorityOrder a.priority = some ra → priorityOrder b.priority = some rb → ra ≤ rb) ∧
    applySort "priority" [c1Low1, c1High1, c1Med1, c1High2, c1Low2, c1Med2] =
      [c1High1, c1High2, c1Med1, c1Med2, c1Low1, c1Low2] := by
  refine ⟨by rw [applySort_priority]; exact stableSort_perm _ _, ?_, by decide⟩
  rw [applySort_priority]
  have hp := stableSort_pairwise
    (P := fun t => (priorityOrder t.priority).isSome = true)
    (fun a b _ _ => priorityLe_total a b)
    (fun a b c ha hb hc h1 h2 => priorityLe_trans_recognized a b c ha hb hc h1 h2)
    hrec
  refine hp.imp ?_
  intro a b h ra rb hra hrb
  simpa [priorityLe, hra, hrb] using h

/-- C1 (amended) witness: the theorem applied to the concrete recognized-only
list [low, high]. -/
theorem priority_sort_ranks_recognized_witness :
    List.Perm (applySort "priority" [c1Low1, c1High1]) [c1Low1, c1High1] ∧
    (applySort "priority" [c1Low1, c1High1]).Pairwise (fun a b => ∀ ra rb,
      priorityOrder a.priority = some ra → priorityOrder b.priority = some rb → ra ≤ rb) ∧
    applySort "priority" [c1Low1, c1High1, c1Med1, c1High2, c1Low2, c1Med2] =
      [c1High1, c1High2, c1Med1, c1Med2, c1Low1, c1Low2] :=
  priority_sort_ranks_recognized [c1Low1, c1High1] (by decide)

/-- C9: the filter/sort pipeline is a total function over any well-formed
input (every optional-field access in the source is guarded, which the
embedding mirrors, so no input can make it throw); its output is drawn from
the input, a task with no due date is treated as no-match by the overdue and
due_soon filters, a task with no description and no tags matches a non-empty
search only through its title, and tasks with no due date sort last under
due_date_asc. -/
theorem pipeline_total_absent_fields (currentFilter currentCategory searchInput sortBy : String)
    (today tomorrow : Int) (tasks : List Task) :
    (∀ t, t ∈ getFilteredAndSortedTasks currentFilter currentCategory searchInput sortBy
        today tomorrow tasks → t ∈ tasks) ∧
    (∀ t, t.due_date = none →
      t ∉ statusFilter "overdue" today tomorrow tasks ∧
      t ∉ statusFilter "due_soon" today tomorrow tasks) ∧
    (∀ t term, term ≠ "" → t.description = none → t.tags = none →
      (t ∈ searchFilter term tasks ↔
        t ∈ tasks ∧ term.toList <:+: (jsToLower t.title).toList)) ∧
    (applySort "due_date_asc" tasks).Pairwise
      (fun a b => a.due_date = none → b.due_date = none) := by
  refine ⟨?_, ?_, ?_, ?_⟩
  · intro t h
    exact mem_of_mem_statusFilter (mem_of_mem_categoryFilter (mem_of_mem_searchFilter
      (mem_of_mem_applySort h)))
  · intro t hnone
    constructor
    · rw [statusFilter_overdue]
      intro hmem
      have hpred := (List.mem_filter.mp hmem).2
      simp [hnone] at hpred
    · rw [statusFilter_due_soon]
      intro hmem
      have hpred := (List.mem_filter.mp hmem).2
      simp [hnone] at hpred
  · intro t term hne hdesc htags
    unfold searchFilter
    rw [if_pos hne, List.mem_filter]
    refine and_congr_right fun _ => ?_
    rw [taskMatchesSearch_iff]
    simp [hdesc, htags]
  · rw [applySort_due_date_asc]
    exact (dueDateAsc_sorted_pairwise tasks).imp fun h => h.1

/-- C9 witness: applied at a concrete task with no due date, no description
and no tags: it is excluded by both date tiers. -/
theorem pipeline_total_absent_fields_witness :
    c9Task ∉ statusFilter "overdue" 0 1 [c9Task] ∧
    c9Task ∉ statusFilter "due_soon" 0 1 [c9Task] :=
  (pipeline_total_absent_fields "all" "all" "" "" 0 1 [c9Task]).2.1 c9Task rfl

end Renderer
